import Mathlib

/-
Verification of the BVH traversal-node engine (traversal_node_bvhs.cpp) of the
hpp-fcl repository: a shallow embedding of the collision / distance / continuous
collision detection (conservative advancement) traversal-node operations, with
theorems about the claims of the specification.

Modelling conventions.
FCL_REAL is modelled by the rational numbers; all comparisons and arithmetic of
the source are kept verbatim.  The conservative-advancement stack is a vector in
the source with back() as top of stack; it is modelled as a list whose HEAD is
the top (back) of the stack, so back() is the head, stack[size - 2] is the
second list element, and pop_back() is the tail.  Out-of-bounds vector accesses
are modelled by an Option result (none).  External oracles (the motion-bound
functions, the triangle intersection and distance kernels) are parameters of the
definitions, exactly as the engine treats them.  Vector normalization keeps the
direction but is modelled only up to its positive scale factor, since the exact
scale involves a square root; every consumer of a normalized vector is an
abstract oracle parameter, which absorbs the scale.
-/

namespace Fcl

/-- A 3-vector of rationals, modelling Vec3f of the source. -/
structure Vec3f where
  x : ℚ
  y : ℚ
  z : ℚ
deriving DecidableEq, Repr

instance : Add Vec3f := ⟨fun a b => ⟨a.x + b.x, a.y + b.y, a.z + b.z⟩⟩

instance : Sub Vec3f := ⟨fun a b => ⟨a.x - b.x, a.y - b.y, a.z - b.z⟩⟩

instance : Neg Vec3f := ⟨fun a => ⟨-a.x, -a.y, -a.z⟩⟩

instance : Zero Vec3f := ⟨⟨0, 0, 0⟩⟩

/-- Vector times scalar, as written in the source (axis[0] * n[0]). -/
def Vec3f.smul (v : Vec3f) (k : ℚ) : Vec3f := ⟨v.x * k, v.y * k, v.z * k⟩

/-- Dot product of two 3-vectors. -/
def Vec3f.dot (a b : Vec3f) : ℚ := a.x * b.x + a.y * b.y + a.z * b.z

/-- Componentwise minimum, used for axis-aligned bounds. -/
def Vec3f.cmin (a b : Vec3f) : Vec3f := ⟨min a.x b.x, min a.y b.y, min a.z b.z⟩

/-- Componentwise maximum, used for axis-aligned bounds. -/
def Vec3f.cmax (a b : Vec3f) : Vec3f := ⟨max a.x b.x, max a.y b.y, max a.z b.z⟩

/-- A 3x3 matrix of rationals (rows), modelling Matrix3f of the source. -/
structure Matrix3f where
  row0 : Vec3f
  row1 : Vec3f
  row2 : Vec3f
deriving DecidableEq, Repr

/-- Matrix times vector. -/
def Matrix3f.mulVec (M : Matrix3f) (v : Vec3f) : Vec3f :=
  ⟨M.row0.dot v, M.row1.dot v, M.row2.dot v⟩

/-- The identity rotation. -/
def Matrix3f.id3 : Matrix3f := ⟨⟨1, 0, 0⟩, ⟨0, 1, 0⟩, ⟨0, 0, 1⟩⟩

/-- A rigid transform (rotation and translation), modelling SimpleTransform. -/
structure SimpleTransform where
  R : Matrix3f
  T : Vec3f
deriving DecidableEq, Repr

/-- Application of a rigid transform to a point, modelling tf.transform(p). -/
def SimpleTransform.transform (tf : SimpleTransform) (p : Vec3f) : Vec3f :=
  tf.R.mulVec p + tf.T

/-- Modelled from the spec: Vec3f normalize is repository code that is not under
src; a normalized direction exists only for a nonzero vector (for coincident
nearest points the separation is the zero vector and its normalization is not
well defined).  The direction is returned up to its positive scale factor; every
consumer of the result is an abstract motion-bound oracle parameter, which
absorbs the scale. -/
def normalizeOpt (v : Vec3f) : Option Vec3f := if v = 0 then none else some v

/-- One conservative-advancement stack frame: witness points (in the local frame
of body 1), the two node indices and the recorded lower-bound distance. -/
structure ConservativeAdvancementStackData where
  P1 : Vec3f
  P2 : Vec3f
  c1 : Nat
  c2 : Nat
  d : ℚ
deriving DecidableEq, Repr

/-- The mutable per-query state of a conservative-advancement traversal node:
the frame stack (head of the list is the back of the vector of the source), the
current best time step delta_t, the current minimum distance, and the recorded
witness data of the best leaf pair. -/
structure CAState where
  stack : List ConservativeAdvancementStackData
  delta_t : ℚ
  min_distance : ℚ
  p1 : Vec3f
  p2 : Vec3f
  last_tri_id1 : Nat
  last_tri_id2 : Nat
deriving DecidableEq, Repr

/-- The candidate time step of one motion-bound computation:
1 when bound <= c, and c / bound otherwise. -/
def curDeltaT (c bound : ℚ) : ℚ := if bound ≤ c then 1 else c / bound

/-- One delta_t update: replace the running delta_t only when the candidate of
the pair (c, bound) is strictly smaller. -/
def deltaTStep (dt : ℚ) (p : ℚ × ℚ) : ℚ :=
  if curDeltaT p.1 p.2 < dt then curDeltaT p.1 p.2 else dt

/-- The direction combination of the OBB canStop and of the template RSS
canStop: axis[0] * n[0] + axis[1] * n[1] + axis[2] * n[2], where axes gives the
local axes of the bounding volume of node c1 of model 1. -/
def obbNodeDir (axes : Nat → Fin 3 → Vec3f) (c1 : Nat) (n : Vec3f) : Vec3f :=
  ((axes c1 0).smul n.x) + ((axes c1 1).smul n.y) + ((axes c1 2).smul n.z)

/-- The direction combination actually written in
MeshConservativeAdvancementTraversalNodeRSS canStop:
axis[0] * n[0] + axis[1] * n[2] + axis[2] * n[2] (n[2] where the OBB version
has n[1]). -/
def rssNodeDir (axes : Nat → Fin 3 → Vec3f) (c1 : Nat) (n : Vec3f) : Vec3f :=
  ((axes c1 0).smul n.x) + ((axes c1 1).smul n.z) + ((axes c1 2).smul n.z)

/-- The stack frame whose data the canStop code selects: the second-from-top
frame when the recorded distance of the top frame is strictly greater than c,
the top frame otherwise. -/
def selFrame (top : ConservativeAdvancementStackData)
    (rest : List ConservativeAdvancementStackData) (c : ℚ) :
    ConservativeAdvancementStackData :=
  if c < top.d then rest.headD top else top

/-- MeshConservativeAdvancementTraversalNode canStop for the OBB specialization
(the template RSS specialization is character-identical in the source).
Parameters: the query weighting w and tolerances, the local axes of the bounding
volumes of model 1 (axes c1 i), and the two motion-bound oracles
(motionBound k dir, with k the node index).  Returns none exactly when a stack
access of the source is out of bounds. -/
def canStopOBB (w abs_err rel_err : ℚ) (axes : Nat → Fin 3 → Vec3f)
    (motionBound1 motionBound2 : Nat → Vec3f → ℚ)
    (st : CAState) (c : ℚ) : Option (Bool × CAState) :=
  if w * (st.min_distance - abs_err) ≤ c ∧ w * st.min_distance ≤ c * (1 + rel_err) then
    match st.stack with
    | [] => none
    | data :: rest =>
      if c < data.d then
        match rest with
        | [] => none
        | data2 :: rest2 =>
          let n := data2.P2 - data2.P1
          let c1 := data2.c1
          let c2 := data2.c2
          let n_transformed :=
            ((axes c1 0).smul n.x) + ((axes c1 1).smul n.y) + ((axes c1 2).smul n.z)
          let bound1 := motionBound1 c1 n_transformed
          let bound2 := motionBound2 c2 n_transformed
          let bound := bound1 + bound2
          let cur_delta_t := if bound ≤ c then 1 else c / bound
          let dt := if cur_delta_t < st.delta_t then cur_delta_t else st.delta_t
          some (true, { st with stack := data :: rest2, delta_t := dt })
      else
        let n := data.P2 - data.P1
        let c1 := data.c1
        let c2 := data.c2
        let n_transformed :=
          ((axes c1 0).smul n.x) + ((axes c1 1).smul n.y) + ((axes c1 2).smul n.z)
        let bound1 := motionBound1 c1 n_transformed
        let bound2 := motionBound2 c2 n_transformed
        let bound := bound1 + bound2
        let cur_delta_t := if bound ≤ c then 1 else c / bound
        let dt := if cur_delta_t < st.delta_t then cur_delta_t else st.delta_t
        some (true, { st with stack := rest, delta_t := dt })
  else
    match st.stack with
    | [] => none
    | data :: rest =>
      if c < data.d then
        match rest with
        | [] => none
        | _ :: rest2 => some (false, { st with stack := data :: rest2 })
      else
        some (false, { st with stack := rest })

/-- MeshConservativeAdvancementTraversalNodeRSS canStop: same stack bookkeeping
as the OBB specialization, but the direction combination uses n[2] where the OBB
version has n[1], is composed with the current rotation R0 of body 1, is
normalized, and the oracle of body 2 receives the negated direction. -/
def canStopRSS (w abs_err rel_err : ℚ) (axes : Nat → Fin 3 → Vec3f) (R0 : Matrix3f)
    (motionBound1 motionBound2 : Nat → Vec3f → ℚ)
    (st : CAState) (c : ℚ) : Option (Bool × CAState) :=
  if w * (st.min_distance - abs_err) ≤ c ∧ w * st.min_distance ≤ c * (1 + rel_err) then
    match st.stack with
    | [] => none
    | data :: rest =>
      let go : ConservativeAdvancementStackData →
          List ConservativeAdvancementStackData → Option (Bool × CAState) :=
        fun sel newStack =>
          let n := sel.P2 - sel.P1
          let c1 := sel.c1
          let c2 := sel.c2
          let n_local :=
            ((axes c1 0).smul n.x) + ((axes c1 1).smul n.z) + ((axes c1 2).smul n.z)
          match normalizeOpt (R0.mulVec n_local) with
          | none => none
          | some n_transformed =>
            let bound1 := motionBound1 c1 n_transformed
            let bound2 := motionBound2 c2 (-n_transformed)
            let bound := bound1 + bound2
            let cur_delta_t := if bound ≤ c then 1 else c / bound
            let dt := if cur_delta_t < st.delta_t then cur_delta_t else st.delta_t
            some (true, { st with stack := newStack, delta_t := dt })
      if c < data.d then
        match rest with
        | [] => none
        | data2 :: rest2 => go data2 (data :: rest2)
      else
        go data rest
  else
    match st.stack with
    | [] => none
    | data :: rest =>
      if c < data.d then
        match rest with
        | [] => none
        | _ :: rest2 => some (false, { st with stack := data :: rest2 })
      else
        some (false, { st with stack := rest })

/-- Modelled from the spec words of claim C3, for refinement comparison only:
a canStop in which the selected separation vector is combined with the volume
axes using the component indices 0, 1, 2, composed with the current rotation of
body 1, normalized, and passed to the motion-bound oracles with the negated
direction for body 2.  The stack bookkeeping is that of the source. -/
def canStopDirSpec (w abs_err rel_err : ℚ) (axes : Nat → Fin 3 → Vec3f) (R0 : Matrix3f)
    (motionBound1 motionBound2 : Nat → Vec3f → ℚ)
    (st : CAState) (c : ℚ) : Option (Bool × CAState) :=
  if w * (st.min_distance - abs_err) ≤ c ∧ w * st.min_distance ≤ c * (1 + rel_err) then
    match st.stack with
    | [] => none
    | data :: rest =>
      let go : ConservativeAdvancementStackData →
          List ConservativeAdvancementStackData → Option (Bool × CAState) :=
        fun sel newStack =>
          let n := sel.P2 - sel.P1
          let c1 := sel.c1
          let c2 := sel.c2
          let n_local :=
            ((axes c1 0).smul n.x) + ((axes c1 1).smul n.y) + ((axes c1 2).smul n.z)
          match normalizeOpt (R0.mulVec n_local) with
          | none => none
          | some n_transformed =>
            let bound1 := motionBound1 c1 n_transformed
            let bound2 := motionBound2 c2 (-n_transformed)
            let bound := bound1 + bound2
            let cur_delta_t := if bound ≤ c then 1 else c / bound
            let dt := if cur_delta_t < st.delta_t then cur_delta_t else st.delta_t
            some (true, { st with stack := newStack, delta_t := dt })
      if c < data.d then
        match rest with
        | [] => none
        | data2 :: rest2 => go data2 (data :: rest2)
      else
        go data rest
  else
    match st.stack with
    | [] => none
    | data :: rest =>
      if c < data.d then
        match rest with
        | [] => none
        | _ :: rest2 => some (false, { st with stack := data :: rest2 })
      else
        some (false, { st with stack := rest })

/-- MeshConservativeAdvancementTraversalNodeRSS leafTesting: the leaf kernel
output (d, P1, P2) for the pair is a parameter, as are the current rotation R0
of body 1 and the two motion-bound oracles of the leaf triangles (the triangle
vertex arguments of computeMotionBound are absorbed into the oracle closure of
this call).  Returns none exactly when the normalization of the separation
direction is not defined. -/
def ccdLeafTesting (R0 : Matrix3f) (motionBound1 motionBound2 : Vec3f → ℚ)
    (primitive_id1 primitive_id2 : Nat)
    (d : ℚ) (P1 P2 : Vec3f) (st : CAState) : Option CAState :=
  let st1 :=
    if d < st.min_distance then
      { st with min_distance := d, p1 := P1, p2 := P2,
                last_tri_id1 := primitive_id1, last_tri_id2 := primitive_id2 }
    else st
  let n := P2 - P1
  match normalizeOpt (R0.mulVec n) with
  | none => none
  | some n_transformed =>
    let bound1 := motionBound1 n_transformed
    let bound2 := motionBound2 (-n_transformed)
    let bound := bound1 + bound2
    let cur_delta_t := if bound ≤ d then 1 else d / bound
    some (if cur_delta_t < st1.delta_t then { st1 with delta_t := cur_delta_t } else st1)

/-- The occupancy classification of a model, an explicit tri-state tag. -/
inductive OccupancyTag where
  | occupied : OccupancyTag
  | free : OccupancyTag
  | unknown : OccupancyTag
deriving DecidableEq, Repr

/-- isOccupied of a model. -/
def OccupancyTag.isOccupied : OccupancyTag → Bool
  | .occupied => true
  | _ => false

/-- isFree of a model. -/
def OccupancyTag.isFree : OccupancyTag → Bool
  | .free => true
  | _ => false

/-- A recorded contact: the two primitive ids, the world-space contact point and
normal, and the penetration depth. -/
structure Contact where
  id1 : Nat
  id2 : Nat
  pos : Vec3f
  normal : Vec3f
  penetration_depth : ℚ
deriving DecidableEq, Repr

/-- An axis-aligned bounding box given by its componentwise bounds. -/
structure AABB where
  min_ : Vec3f
  max_ : Vec3f
deriving DecidableEq, Repr

/-- The axis-aligned bounds of a triangle given by its three vertices. -/
def AABB.ofTri (p q r : Vec3f) : AABB :=
  ⟨Vec3f.cmin (Vec3f.cmin p q) r, Vec3f.cmax (Vec3f.cmax p q) r⟩

/-- The axis-aligned overlap region of two boxes, as computed by
AABB overlap of the source (componentwise max of the mins, min of the maxs). -/
def AABB.overlapPart (a b : AABB) : AABB :=
  ⟨Vec3f.cmax a.min_ b.min_, Vec3f.cmin a.max_ b.max_⟩

/-- A cost source: an axis-aligned region and a density. -/
structure CostSource where
  aabb_min : Vec3f
  aabb_max : Vec3f
  cost_density : ℚ
deriving DecidableEq, Repr

/-- The cost source built from an axis-aligned box and a density. -/
def CostSource.ofAABB (a : AABB) (density : ℚ) : CostSource :=
  ⟨a.min_, a.max_, density⟩

/-- The collision query policy recognized by the leaf test. -/
structure CollisionRequest where
  num_max_contacts : Nat
  enable_contact : Bool
  enable_cost : Bool
deriving DecidableEq, Repr

/-- The accumulating collision result: the contact list and the cost sources. -/
structure CollisionResult where
  contacts : List Contact
  cost_sources : List CostSource
deriving DecidableEq, Repr

/-- Modelled from the spec: CollisionResult addContact is repository code that
is not under src; per the spec, the contact list never exceeds the maximum of
the request, and once num_max_contacts is reached additional contacts are
silently dropped. -/
def CollisionResult.addContact (res : CollisionResult) (num_max_contacts : Nat)
    (ct : Contact) : CollisionResult :=
  if res.contacts.length < num_max_contacts then
    { res with contacts := res.contacts ++ [ct] }
  else res

/-- Recording of one cost source. -/
def CollisionResult.addCostSource (res : CollisionResult) (cs : CostSource) :
    CollisionResult :=
  { res with cost_sources := res.cost_sources ++ [cs] }

/-- The output of the external triangle intersection kernel for one leaf pair:
the hit flag, the contact points (at most 2 in the source), the penetration
depth and the contact normal. -/
structure IntersectOut where
  hit : Bool
  pts : List Vec3f
  penetration : ℚ
  normal : Vec3f
deriving DecidableEq, Repr

/-- details meshCollisionOrientedNodeLeafTesting: the branch structure of the
source over the occupancy tags, the request flags and the kernel output of the
pair.  The kernel output and the triangle vertices (object-local) are
parameters. -/
def meshCollisionLeafTesting (occ1 occ2 : OccupancyTag)
    (request : CollisionRequest) (tf1 tf2 : SimpleTransform) (cost_density : ℚ)
    (primitive_id1 primitive_id2 : Nat)
    (p1 p2 p3 q1 q2 q3 : Vec3f)
    (isect : IntersectOut) (res : CollisionResult) : CollisionResult :=
  let overlap_part :=
    (AABB.ofTri (tf1.transform p1) (tf1.transform p2) (tf1.transform p3)).overlapPart
      (AABB.ofTri (tf2.transform q1) (tf2.transform q2) (tf2.transform q3))
  if occ1.isOccupied && occ2.isOccupied then
    let step :=
      if !request.enable_contact then
        if isect.hit then
          (true, res.addContact request.num_max_contacts
            ⟨primitive_id1, primitive_id2, 0, 0, 0⟩)
        else (false, res)
      else
        if isect.hit then
          let n_contacts :=
            if request.num_max_contacts < res.contacts.length + isect.pts.length then
              (if res.contacts.length < request.num_max_contacts then
                request.num_max_contacts - res.contacts.length
              else 0)
            else isect.pts.length
          (true, (isect.pts.take n_contacts).foldl
            (fun r pt => r.addContact request.num_max_contacts
              ⟨primitive_id1, primitive_id2, tf1.transform pt,
               tf1.R.mulVec isect.normal, isect.penetration⟩) res)
        else (false, res)
    if step.1 && request.enable_cost then
      step.2.addCostSource (CostSource.ofAABB overlap_part cost_density)
    else step.2
  else
    if (!occ1.isFree && !occ2.isFree) && request.enable_cost then
      if isect.hit then
        res.addCostSource (CostSource.ofAABB overlap_part cost_density)
      else res
    else res

/-- The distance query policy recognized by the leaf test. -/
structure DistanceRequest where
  enable_nearest_points : Bool
deriving DecidableEq, Repr

/-- The accumulating distance result: the running minimum, the identities of the
two models of the best pair, the owning primitive ids, and the nearest points
(kept in the local frame of body 1 during traversal). -/
structure DistanceResult where
  min_distance : ℚ
  o1 : Nat
  o2 : Nat
  b1 : Nat
  b2 : Nat
  nearest_point1 : Vec3f
  nearest_point2 : Vec3f
deriving DecidableEq, Repr

/-- Modelled from the spec: DistanceResult update is repository code that is not
under src; per the spec, ties do not replace the existing best, so the record is
overwritten only on strict improvement.  This overload records the nearest
points. -/
def DistanceResult.update (res : DistanceResult) (d : ℚ) (o1 o2 b1 b2 : Nat)
    (P1 P2 : Vec3f) : DistanceResult :=
  if d < res.min_distance then ⟨d, o1, o2, b1, b2, P1, P2⟩ else res

/-- Modelled from the spec: the overload of DistanceResult update without
nearest points (repository code that is not under src); overwritten only on
strict improvement, the stored points are left as they are. -/
def DistanceResult.updateIds (res : DistanceResult) (d : ℚ) (o1 o2 b1 b2 : Nat) :
    DistanceResult :=
  if d < res.min_distance then
    { res with min_distance := d, o1 := o1, o2 := o2, b1 := b1, b2 := b2 }
  else res

/-- details meshDistanceOrientedNodeLeafTesting: the leaf kernel output
(d, P1, P2) for the pair is a parameter; the result is updated with or without
nearest points according to the request. -/
def meshDistanceLeafTesting (request : DistanceRequest) (model1 model2 : Nat)
    (primitive_id1 primitive_id2 : Nat) (d : ℚ) (P1 P2 : Vec3f)
    (res : DistanceResult) : DistanceResult :=
  if request.enable_nearest_points then
    res.update d model1 model2 primitive_id1 primitive_id2 P1 P2
  else
    res.updateIds d model1 model2 primitive_id1 primitive_id2

/-- One distance leaf event: the primitive ids of the pair and the kernel
output (d, P1, P2). -/
structure DistanceLeafEvent where
  pid1 : Nat
  pid2 : Nat
  d : ℚ
  P1 : Vec3f
  P2 : Vec3f
deriving DecidableEq, Repr

/-- The fold of distance leaf tests over a sequence of leaf events. -/
def runDistanceLeafTests (request : DistanceRequest) (model1 model2 : Nat)
    (res : DistanceResult) (events : List DistanceLeafEvent) : DistanceResult :=
  events.foldl
    (fun r e => meshDistanceLeafTesting request model1 model2 e.pid1 e.pid2 e.d e.P1 e.P2 r)
    res

/-- details distancePostprocessOrientedNode: converts the stored nearest points
into world space by the transform of body 1, only when nearest points were
requested and the stored model identities still equal the models of the
query. -/
def distancePostprocessOrientedNode (model1 model2 : Nat) (tf1 : SimpleTransform)
    (request : DistanceRequest) (res : DistanceResult) : DistanceResult :=
  if request.enable_nearest_points ∧ res.o1 = model1 ∧ res.o2 = model2 then
    { res with nearest_point1 := tf1.transform res.nearest_point1,
               nearest_point2 := tf1.transform res.nearest_point2 }
  else res

/-- One collision leaf event: the primitive ids, the object-local vertices of
the two triangles and the intersection kernel output of the pair. -/
structure CollisionLeafEvent where
  pid1 : Nat
  pid2 : Nat
  p1 : Vec3f
  p2 : Vec3f
  p3 : Vec3f
  q1 : Vec3f
  q2 : Vec3f
  q3 : Vec3f
  isect : IntersectOut
deriving DecidableEq, Repr

/-- The fold of collision leaf tests over a sequence of leaf events. -/
def runCollisionLeafTests (occ1 occ2 : OccupancyTag) (request : CollisionRequest)
    (tf1 tf2 : SimpleTransform) (cost_density : ℚ)
    (res : CollisionResult) (events : List CollisionLeafEvent) : CollisionResult :=
  events.foldl
    (fun r e => meshCollisionLeafTesting occ1 occ2 request tf1 tf2 cost_density
      e.pid1 e.pid2 e.p1 e.p2 e.p3 e.q1 e.q2 e.q3 e.isect r)
    res

/-- The admissibility condition of canStop:
c >= w * (min_distance - abs_err) and c * (1 + rel_err) >= w * min_distance. -/
def canStopAdmissible (w abs_err rel_err min_distance c : ℚ) : Prop :=
  w * (min_distance - abs_err) ≤ c ∧ w * min_distance ≤ c * (1 + rel_err)

instance (w abs_err rel_err m c : ℚ) : Decidable (canStopAdmissible w abs_err rel_err m c) :=
  inferInstanceAs (Decidable (_ ∧ _))

/-- A concrete set of bounding-volume axes for test instances: the standard
basis at every node. -/
def axesStd : Nat → Fin 3 → Vec3f := fun _ i =>
  if i = 0 then ⟨1, 0, 0⟩ else if i = 1 then ⟨0, 1, 0⟩ else ⟨0, 0, 1⟩

/-- A concrete stack frame for test instances. -/
def frameA : ConservativeAdvancementStackData := ⟨⟨0, 0, 0⟩, ⟨1, 1, 1⟩, 0, 0, 1⟩

/-- A concrete CCD state for test instances: a one-frame stack, delta_t 1,
min_distance 1. -/
def stA : CAState := ⟨[frameA], 1, 1, ⟨0, 0, 0⟩, ⟨0, 0, 0⟩, 0, 0⟩

/-- A concrete motion-bound oracle for test instances: constantly zero. -/
def mbZero : Nat → Vec3f → ℚ := fun _ _ => 0

/-- A second concrete stack frame for test instances, with a larger recorded
distance. -/
def frameB : ConservativeAdvancementStackData := ⟨⟨0, 0, 0⟩, ⟨1, 1, 1⟩, 1, 1, 3⟩

/-- A concrete CCD state with a two-frame stack and min_distance 2. -/
def stB : CAState := ⟨[frameB, frameA], 1, 2, ⟨0, 0, 0⟩, ⟨0, 0, 0⟩, 0, 0⟩

/-- A rotation by a quarter turn about the z axis, used as a concrete current
rotation of body 1 in test instances. -/
def rotZ90 : Matrix3f := ⟨⟨0, -1, 0⟩, ⟨1, 0, 0⟩, ⟨0, 0, 1⟩⟩

/-- A concrete stack frame whose separation vector lies along the x axis and
whose recorded distance is one half. -/
def frameC : ConservativeAdvancementStackData := ⟨⟨0, 0, 0⟩, ⟨1, 0, 0⟩, 0, 0, 1/2⟩

/-- A concrete CCD state with the one-frame stack of frameC, delta_t 1 and
min_distance one half. -/
def stC : CAState := ⟨[frameC], 1, 1/2, ⟨0, 0, 0⟩, ⟨0, 0, 0⟩, 0, 0⟩

/-- A concrete motion-bound oracle returning the y component of the queried
direction. -/
def mbY : Nat → Vec3f → ℚ := fun _ v => v.y

/-- The identity rigid transform, for test instances. -/
def tfId : SimpleTransform := ⟨Matrix3f.id3, ⟨0, 0, 0⟩⟩

/-- A concrete intersection kernel output reporting a hit with no detailed
contact points. -/
def isectHit : IntersectOut := ⟨true, [], 0, ⟨0, 0, 0⟩⟩

/-- A concrete intersection kernel output reporting a hit with one detailed
contact point. -/
def isectHitPt : IntersectOut := ⟨true, [⟨0, 0, 0⟩], 0, ⟨0, 0, 1⟩⟩

/-- The empty collision result. -/
def resEmpty : CollisionResult := ⟨[], []⟩

/-- A concrete collision leaf event whose kernel output reports a hit. -/
def evHit : CollisionLeafEvent :=
  ⟨0, 0, ⟨0, 0, 0⟩, ⟨0, 0, 0⟩, ⟨0, 0, 0⟩, ⟨0, 0, 0⟩, ⟨0, 0, 0⟩, ⟨0, 0, 0⟩, isectHit⟩

/-- A concrete distance result with minimum 2. -/
def resD : DistanceResult := ⟨2, 0, 1, 0, 0, ⟨0, 0, 0⟩, ⟨0, 0, 0⟩⟩

/-- A concrete distance leaf event with distance 1. -/
def evD : DistanceLeafEvent := ⟨0, 0, 1, ⟨0, 0, 0⟩, ⟨1, 0, 0⟩⟩

theorem Vec3f.add_def (a b : Vec3f) : a + b = ⟨a.x + b.x, a.y + b.y, a.z + b.z⟩ := rfl

theorem Vec3f.sub_def (a b : Vec3f) : a - b = ⟨a.x - b.x, a.y - b.y, a.z - b.z⟩ := rfl

theorem Vec3f.neg_def (a : Vec3f) : -a = ⟨-a.x, -a.y, -a.z⟩ := rfl

theorem Vec3f.zero_def : (0 : Vec3f) = ⟨0, 0, 0⟩ := rfl

theorem Matrix3f.id3_mulVec (v : Vec3f) : Matrix3f.id3.mulVec v = v := by
  cases v with
  | mk x y z => simp [Matrix3f.id3, Matrix3f.mulVec, Vec3f.dot]

theorem deltaTStep_eq_min (dt : ℚ) (p : ℚ × ℚ) :
    deltaTStep dt p = min (curDeltaT p.1 p.2) dt := by
  unfold deltaTStep
  rcases lt_trichotomy (curDeltaT p.1 p.2) dt with h | h | h
  · rw [if_pos h, min_eq_left h.le]
  · rw [if_neg (by rw [h]; exact lt_irrefl dt), h, min_self]
  · rw [if_neg (not_lt.mpr h.le), min_eq_right h.le]

theorem curDeltaT_le_one (c bound : ℚ) (hc : 0 ≤ c) : curDeltaT c bound ≤ 1 := by
  unfold curDeltaT
  by_cases h : bound ≤ c
  · rw [if_pos h]
  · rw [if_neg h]
    have hb : c < bound := not_le.mp h
    have hbpos : 0 < bound := lt_of_le_of_lt hc hb
    exact (div_le_one hbpos).mpr hb.le

theorem foldl_deltaTStep_eq_foldl_min (a : ℚ) (l : List (ℚ × ℚ)) :
    l.foldl deltaTStep a = (l.map fun p => curDeltaT p.1 p.2).foldl min a := by
  induction l generalizing a with
  | nil => rfl
  | cons p l ih =>
    simp only [List.foldl_cons, List.map_cons, ih, deltaTStep_eq_min, min_comm]

theorem foldl_min_le_init (a : ℚ) (l : List ℚ) : l.foldl min a ≤ a := by
  induction l generalizing a with
  | nil => exact le_refl a
  | cons x l ih => exact le_trans (ih (min a x)) (min_le_left a x)

theorem foldl_min_le_mem (a x : ℚ) (l : List ℚ) (hx : x ∈ l) : l.foldl min a ≤ x := by
  induction l generalizing a with
  | nil => cases hx
  | cons y l ih =>
    rcases List.mem_cons.mp hx with h | h
    · subst h
      exact le_trans (foldl_min_le_init (min a x) l) (min_le_right a x)
    · exact ih (min a y) h

theorem foldl_min_mem (a : ℚ) (l : List ℚ) :
    l.foldl min a = a ∨ l.foldl min a ∈ l := by
  induction l generalizing a with
  | nil => exact Or.inl rfl
  | cons x l ih =>
    rw [List.foldl_cons]
    rcases ih (min a x) with h | h
    · rw [h]
      rcases le_total a x with hax | hax
      · exact Or.inl (min_eq_left hax)
      · right
        rw [min_eq_right hax]
        exact List.mem_cons_self x l
    · exact Or.inr (List.mem_cons_of_mem x h)

theorem canStopOBB_eq_shallow (w abs_err rel_err : ℚ) (axes : Nat → Fin 3 → Vec3f)
    (mb1 mb2 : Nat → Vec3f → ℚ) (st : CAState) (c : ℚ)
    (top : ConservativeAdvancementStackData)
    (rest : List ConservativeAdvancementStackData)
    (hst : st.stack = top :: rest) (hd : ¬ c < top.d) :
    canStopOBB w abs_err rel_err axes mb1 mb2 st c =
      if canStopAdmissible w abs_err rel_err st.min_distance c then
        some (true,
          { st with
            stack := rest,
            delta_t := deltaTStep st.delta_t
              (c, mb1 top.c1 (obbNodeDir axes top.c1 (top.P2 - top.P1)) +
                  mb2 top.c2 (obbNodeDir axes top.c1 (top.P2 - top.P1))) })
      else
        some (false, { st with stack := rest }) := by
  rw [canStopOBB, hst]
  unfold canStopAdmissible
  split_ifs with h
  · simp only [if_neg hd]
    rfl
  · simp only [if_neg hd]

theorem canStopOBB_eq_deep (w abs_err rel_err : ℚ) (axes : Nat → Fin 3 → Vec3f)
    (mb1 mb2 : Nat → Vec3f → ℚ) (st : CAState) (c : ℚ)
    (top second : ConservativeAdvancementStackData)
    (rest2 : List ConservativeAdvancementStackData)
    (hst : st.stack = top :: second :: rest2) (hd : c < top.d) :
    canStopOBB w abs_err rel_err axes mb1 mb2 st c =
      if canStopAdmissible w abs_err rel_err st.min_distance c then
        some (true,
          { st with
            stack := top :: rest2,
            delta_t := deltaTStep st.delta_t
              (c, mb1 second.c1 (obbNodeDir axes second.c1 (second.P2 - second.P1)) +
                  mb2 second.c2 (obbNodeDir axes second.c1 (second.P2 - second.P1))) })
      else
        some (false, { st with stack := top :: rest2 }) := by
  rw [canStopOBB, hst]
  unfold canStopAdmissible
  split_ifs with h
  · simp only [if_pos hd]
    rfl
  · simp only [if_pos hd]

theorem canStopOBB_eq_oob (w abs_err rel_err : ℚ) (axes : Nat → Fin 3 → Vec3f)
    (mb1 mb2 : Nat → Vec3f → ℚ) (st : CAState) (c : ℚ)
    (top : ConservativeAdvancementStackData)
    (hst : st.stack = [top]) (hd : c < top.d) :
    canStopOBB w abs_err rel_err axes mb1 mb2 st c = none := by
  rw [canStopOBB, hst]
  split_ifs with h
  · simp only [if_pos hd]
  · simp only [if_pos hd]

theorem canStopRSS_eq_shallow (w abs_err rel_err : ℚ) (axes : Nat → Fin 3 → Vec3f)
    (R0 : Matrix3f) (mb1 mb2 : Nat → Vec3f → ℚ) (st : CAState) (c : ℚ)
    (top : ConservativeAdvancementStackData)
    (rest : List ConservativeAdvancementStackData)
    (hst : st.stack = top :: rest) (hd : ¬ c < top.d) :
    canStopRSS w abs_err rel_err axes R0 mb1 mb2 st c =
      if canStopAdmissible w abs_err rel_err st.min_distance c then
        (match normalizeOpt (R0.mulVec (rssNodeDir axes top.c1 (top.P2 - top.P1))) with
         | none => none
         | some nt =>
            some (true,
              { st with
                stack := rest,
                delta_t := deltaTStep st.delta_t (c, mb1 top.c1 nt + mb2 top.c2 (-nt)) }))
      else
        some (false, { st with stack := rest }) := by
  rw [canStopRSS, hst]
  unfold canStopAdmissible
  split_ifs with h
  · simp only [if_neg hd]
    rfl
  · simp only [if_neg hd]

theorem canStopRSS_eq_deep (w abs_err rel_err : ℚ) (axes : Nat → Fin 3 → Vec3f)
    (R0 : Matrix3f) (mb1 mb2 : Nat → Vec3f → ℚ) (st : CAState) (c : ℚ)
    (top second : ConservativeAdvancementStackData)
    (rest2 : List ConservativeAdvancementStackData)
    (hst : st.stack = top :: second :: rest2) (hd : c < top.d) :
    canStopRSS w abs_err rel_err axes R0 mb1 mb2 st c =
      if canStopAdmissible w abs_err rel_err st.min_distance c then
        (match normalizeOpt (R0.mulVec (rssNodeDir axes second.c1 (second.P2 - second.P1))) with
         | none => none
         | some nt =>
            some (true,
              { st with
                stack := top :: rest2,
                delta_t := deltaTStep st.delta_t
                  (c, mb1 second.c1 nt + mb2 second.c2 (-nt)) }))
      else
        some (false, { st with stack := top :: rest2 }) := by
  rw [canStopRSS, hst]
  unfold canStopAdmissible
  split_ifs with h
  · simp only [if_pos hd]
    rfl
  · simp only [if_pos hd]

theorem canStopRSS_eq_oob (w abs_err rel_err : ℚ) (axes : Nat → Fin 3 → Vec3f)
    (R0 : Matrix3f) (mb1 mb2 : Nat → Vec3f → ℚ) (st : CAState) (c : ℚ)
    (top : ConservativeAdvancementStackData)
    (hst : st.stack = [top]) (hd : c < top.d) :
    canStopRSS w abs_err rel_err axes R0 mb1 mb2 st c = none := by
  rw [canStopRSS, hst]
  split_ifs with h
  · simp only [if_pos hd]
  · simp only [if_pos hd]

/-- C1: for every CCD query state (min_distance, w, abs_err, rel_err) and every
argument c, canStop — both the template OBB specialization (the template RSS one
is character-identical) and the RSS node class — returns true exactly when
c >= w * (min_distance - abs_err) and c * (1 + rel_err) >= w * min_distance,
and when it returns true the current top stack frame is consumed (the stack
shrinks by one frame).  The stack preconditions are those of claim C9; for the
RSS node class the separation directions of the frames are assumed nonzero so
that their normalization is defined. -/
theorem canStop_true_iff_admissible
    (w abs_err rel_err : ℚ) (axes : Nat → Fin 3 → Vec3f) (R0 : Matrix3f)
    (mb1 mb2 : Nat → Vec3f → ℚ) (st : CAState) (c : ℚ)
    (top : ConservativeAdvancementStackData)
    (rest : List ConservativeAdvancementStackData)
    (hst : st.stack = top :: rest)
    (hdeep : c < top.d → rest ≠ []) :
    (∃ b st', canStopOBB w abs_err rel_err axes mb1 mb2 st c = some (b, st') ∧
      (b = true ↔ (w * (st.min_distance - abs_err) ≤ c ∧
                   w * st.min_distance ≤ c * (1 + rel_err))) ∧
      (b = true → st'.stack.length + 1 = st.stack.length)) ∧
    ((∀ f ∈ st.stack, R0.mulVec (rssNodeDir axes f.c1 (f.P2 - f.P1)) ≠ 0) →
     ∃ b st', canStopRSS w abs_err rel_err axes R0 mb1 mb2 st c = some (b, st') ∧
      (b = true ↔ (w * (st.min_distance - abs_err) ≤ c ∧
                   w * st.min_distance ≤ c * (1 + rel_err))) ∧
      (b = true → st'.stack.length + 1 = st.stack.length)) := by
  by_cases hd : c < top.d
  · obtain ⟨second, rest2, rfl⟩ : ∃ s r, rest = s :: r := by
      cases rest with
      | nil => exact absurd rfl (hdeep hd)
      | cons s r => exact ⟨s, r, rfl⟩
    constructor
    · rw [canStopOBB_eq_deep w abs_err rel_err axes mb1 mb2 st c top second rest2 hst hd]
      by_cases hadm : canStopAdmissible w abs_err rel_err st.min_distance c
      · rw [if_pos hadm]
        refine ⟨true, _, rfl, ⟨fun _ => hadm, fun _ => rfl⟩, fun _ => ?_⟩
        simp [hst]
      · rw [if_neg hadm]
        refine ⟨false, _, rfl, ⟨fun h => absurd h (by simp), fun h => absurd h hadm⟩,
          fun h => absurd h (by simp)⟩
    · intro hnz
      have hsecond : second ∈ st.stack := by
        rw [hst]
        exact List.mem_cons_of_mem top (List.mem_cons_self second rest2)
      have hnz2 := hnz second hsecond
      rw [canStopRSS_eq_deep w abs_err rel_err axes R0 mb1 mb2 st c top second rest2 hst hd]
      by_cases hadm : canStopAdmissible w abs_err rel_err st.min_distance c
      · rw [if_pos hadm]
        rw [normalizeOpt, if_neg hnz2]
        refine ⟨true, _, rfl, ⟨fun _ => hadm, fun _ => rfl⟩, fun _ => ?_⟩
        simp [hst]
      · rw [if_neg hadm]
        refine ⟨false, _, rfl, ⟨fun h => absurd h (by simp), fun h => absurd h hadm⟩,
          fun h => absurd h (by simp)⟩
  · constructor
    · rw [canStopOBB_eq_shallow w abs_err rel_err axes mb1 mb2 st c top rest hst hd]
      by_cases hadm : canStopAdmissible w abs_err rel_err st.min_distance c
      · rw [if_pos hadm]
        refine ⟨true, _, rfl, ⟨fun _ => hadm, fun _ => rfl⟩, fun _ => ?_⟩
        simp [hst]
      · rw [if_neg hadm]
        refine ⟨false, _, rfl, ⟨fun h => absurd h (by simp), fun h => absurd h hadm⟩,
          fun h => absurd h (by simp)⟩
    · intro hnz
      have htop : top ∈ st.stack := by
        rw [hst]
        exact List.mem_cons_self top rest
      have hnz2 := hnz top htop
      rw [canStopRSS_eq_shallow w abs_err rel_err axes R0 mb1 mb2 st c top rest hst hd]
      by_cases hadm : canStopAdmissible w abs_err rel_err st.min_distance c
      · rw [if_pos hadm]
        rw [normalizeOpt, if_neg hnz2]
        refine ⟨true, _, rfl, ⟨fun _ => hadm, fun _ => rfl⟩, fun _ => ?_⟩
        simp [hst]
      · rw [if_neg hadm]
        refine ⟨false, _, rfl, ⟨fun h => absurd h (by simp), fun h => absurd h hadm⟩,
          fun h => absurd h (by simp)⟩

/-- Witness for C1: the theorem applied to a concrete admissible call on a
one-frame stack. -/
theorem canStop_true_iff_admissible_witness :
    (∃ b st', canStopOBB 1 0 0 axesStd mbZero mbZero stA 1 = some (b, st') ∧
      (b = true ↔ ((1 : ℚ) * (stA.min_distance - 0) ≤ 1 ∧
                   (1 : ℚ) * stA.min_distance ≤ 1 * (1 + 0))) ∧
      (b = true → st'.stack.length + 1 = stA.stack.length)) ∧
    ((∀ f ∈ stA.stack, Matrix3f.id3.mulVec (rssNodeDir axesStd f.c1 (f.P2 - f.P1)) ≠ 0) →
     ∃ b st', canStopRSS 1 0 0 axesStd Matrix3f.id3 mbZero mbZero stA 1 = some (b, st') ∧
      (b = true ↔ ((1 : ℚ) * (stA.min_distance - 0) ≤ 1 ∧
                   (1 : ℚ) * stA.min_distance ≤ 1 * (1 + 0))) ∧
      (b = true → st'.stack.length + 1 = stA.stack.length)) :=
  canStop_true_iff_admissible 1 0 0 axesStd Matrix3f.id3 mbZero mbZero stA 1 frameA []
    rfl (by decide)

/-- C4: on every canStop call, admissible or not, when the recorded distance of
the top frame is strictly greater than the argument c, the second-from-top frame
is overwritten with the data of the top frame and then exactly one frame is
popped (the new stack is the old top followed by the frames below the
second-from-top one); and in the inadmissible branch the call returns false and
modifies neither delta_t nor min_distance. -/
theorem canStop_frame_collapse
    (w abs_err rel_err : ℚ) (axes : Nat → Fin 3 → Vec3f)
    (mb1 mb2 : Nat → Vec3f → ℚ) (st : CAState) (c : ℚ)
    (top : ConservativeAdvancementStackData)
    (rest : List ConservativeAdvancementStackData)
    (hst : st.stack = top :: rest) (hdeep : c < top.d → rest ≠ []) :
    (c < top.d → ∀ second rest2, rest = second :: rest2 →
      ∃ b st', canStopOBB w abs_err rel_err axes mb1 mb2 st c = some (b, st') ∧
        st'.stack = top :: rest2 ∧ st'.stack.length + 1 = st.stack.length) ∧
    (¬ canStopAdmissible w abs_err rel_err st.min_distance c →
      ∃ st', canStopOBB w abs_err rel_err axes mb1 mb2 st c = some (false, st') ∧
        st'.delta_t = st.delta_t ∧ st'.min_distance = st.min_distance) := by
  constructor
  · intro hd second rest2 hrest
    subst hrest
    rw [canStopOBB_eq_deep w abs_err rel_err axes mb1 mb2 st c top second rest2 hst hd]
    by_cases hadm : canStopAdmissible w abs_err rel_err st.min_distance c
    · rw [if_pos hadm]
      exact ⟨true, _, rfl, rfl, by simp [hst]⟩
    · rw [if_neg hadm]
      exact ⟨false, _, rfl, rfl, by simp [hst]⟩
  · intro hadm
    by_cases hd : c < top.d
    · obtain ⟨second, rest2, rfl⟩ : ∃ s r, rest = s :: r := by
        cases rest with
        | nil => exact absurd rfl (hdeep hd)
        | cons s r => exact ⟨s, r, rfl⟩
      rw [canStopOBB_eq_deep w abs_err rel_err axes mb1 mb2 st c top second rest2 hst hd,
        if_neg hadm]
      exact ⟨_, rfl, rfl, rfl⟩
    · rw [canStopOBB_eq_shallow w abs_err rel_err axes mb1 mb2 st c top rest hst hd,
        if_neg hadm]
      exact ⟨_, rfl, rfl, rfl⟩

/-- Witness for C4: the theorem applied to a concrete inadmissible call on a
two-frame stack whose top frame records a distance larger than c. -/
theorem canStop_frame_collapse_witness :
    ((1 : ℚ) < frameB.d → ∀ second rest2, [frameA] = second :: rest2 →
      ∃ b st', canStopOBB 1 0 0 axesStd mbZero mbZero stB 1 = some (b, st') ∧
        st'.stack = frameB :: rest2 ∧ st'.stack.length + 1 = stB.stack.length) ∧
    (¬ canStopAdmissible 1 0 0 stB.min_distance 1 →
      ∃ st', canStopOBB 1 0 0 axesStd mbZero mbZero stB 1 = some (false, st') ∧
        st'.delta_t = stB.delta_t ∧ st'.min_distance = stB.min_distance) :=
  canStop_frame_collapse 1 0 0 axesStd mbZero mbZero stB 1 frameB [frameA]
    rfl (by decide)

/-- C9: every canStop call needs a non-empty stack, and a stack of at least two
frames whenever the recorded distance of the top frame is strictly greater than
c; under these preconditions the call is fully defined (all stack reads are in
bounds) and pops exactly one frame, for the OBB specialization and (when the
separation directions are nonzero, so normalization is defined) for the RSS node
class; with a single-frame stack and top distance strictly greater than c, the
second-from-top access is out of bounds and the call is undefined. -/
theorem canStop_stack_safety
    (w abs_err rel_err : ℚ) (axes : Nat → Fin 3 → Vec3f) (R0 : Matrix3f)
    (mb1 mb2 : Nat → Vec3f → ℚ) (st : CAState) (c : ℚ)
    (top : ConservativeAdvancementStackData)
    (rest : List ConservativeAdvancementStackData)
    (hst : st.stack = top :: rest) :
    ((c < top.d → rest ≠ []) →
      (∃ r, canStopOBB w abs_err rel_err axes mb1 mb2 st c = some r ∧
        r.2.stack.length + 1 = st.stack.length) ∧
      ((∀ f ∈ st.stack, R0.mulVec (rssNodeDir axes f.c1 (f.P2 - f.P1)) ≠ 0) →
       ∃ r, canStopRSS w abs_err rel_err axes R0 mb1 mb2 st c = some r ∧
        r.2.stack.length + 1 = st.stack.length)) ∧
    (rest = [] → c < top.d →
      canStopOBB w abs_err rel_err axes mb1 mb2 st c = none ∧
      canStopRSS w abs_err rel_err axes R0 mb1 mb2 st c = none) := by
  constructor
  · intro hdeep
    by_cases hd : c < top.d
    · obtain ⟨second, rest2, rfl⟩ : ∃ s r, rest = s :: r := by
        cases rest with
        | nil => exact absurd rfl (hdeep hd)
        | cons s r => exact ⟨s, r, rfl⟩
      constructor
      · rw [canStopOBB_eq_deep w abs_err rel_err axes mb1 mb2 st c top second rest2 hst hd]
        by_cases hadm : canStopAdmissible w abs_err rel_err st.min_distance c
        · rw [if_pos hadm]
          exact ⟨_, rfl, by simp [hst]⟩
        · rw [if_neg hadm]
          exact ⟨_, rfl, by simp [hst]⟩
      · intro hnz
        have hnz2 := hnz second (by
          rw [hst]
          exact List.mem_cons_of_mem top (List.mem_cons_self second rest2))
        rw [canStopRSS_eq_deep w abs_err rel_err axes R0 mb1 mb2 st c top second rest2 hst hd]
        by_cases hadm : canStopAdmissible w abs_err rel_err st.min_distance c
        · rw [if_pos hadm, normalizeOpt, if_neg hnz2]
          exact ⟨_, rfl, by simp [hst]⟩
        · rw [if_neg hadm]
          exact ⟨_, rfl, by simp [hst]⟩
    · constructor
      · rw [canStopOBB_eq_shallow w abs_err rel_err axes mb1 mb2 st c top rest hst hd]
        by_cases hadm : canStopAdmissible w abs_err rel_err st.min_distance c
        · rw [if_pos hadm]
          exact ⟨_, rfl, by simp [hst]⟩
        · rw [if_neg hadm]
          exact ⟨_, rfl, by simp [hst]⟩
      · intro hnz
        have hnz2 := hnz top (by rw [hst]; exact List.mem_cons_self top rest)
        rw [canStopRSS_eq_shallow w abs_err rel_err axes R0 mb1 mb2 st c top rest hst hd]
        by_cases hadm : canStopAdmissible w abs_err rel_err st.min_distance c
        · rw [if_pos hadm, normalizeOpt, if_neg hnz2]
          exact ⟨_, rfl, by simp [hst]⟩
        · rw [if_neg hadm]
          exact ⟨_, rfl, by simp [hst]⟩
  · intro hrest hd
    subst hrest
    exact ⟨canStopOBB_eq_oob w abs_err rel_err axes mb1 mb2 st c top hst hd,
      canStopRSS_eq_oob w abs_err rel_err axes R0 mb1 mb2 st c top hst hd⟩

/-- Witness for C9: the theorem applied to a concrete single-frame stack whose
top frame records a distance larger than c, exercising the out-of-bounds case
(and, vacuously there, the in-bounds part). -/
theorem canStop_stack_safety_witness :
    (((1 : ℚ) < frameB.d → ([] : List ConservativeAdvancementStackData) ≠ []) →
      (∃ r, canStopOBB 1 0 0 axesStd mbZero mbZero
          ⟨[frameB], 1, 2, ⟨0, 0, 0⟩, ⟨0, 0, 0⟩, 0, 0⟩ 1 = some r ∧
        r.2.stack.length + 1 =
          (⟨[frameB], 1, 2, ⟨0, 0, 0⟩, ⟨0, 0, 0⟩, 0, 0⟩ : CAState).stack.length) ∧
      ((∀ f ∈ (⟨[frameB], 1, 2, ⟨0, 0, 0⟩, ⟨0, 0, 0⟩, 0, 0⟩ : CAState).stack,
          Matrix3f.id3.mulVec (rssNodeDir axesStd f.c1 (f.P2 - f.P1)) ≠ 0) →
       ∃ r, canStopRSS 1 0 0 axesStd Matrix3f.id3 mbZero mbZero
          ⟨[frameB], 1, 2, ⟨0, 0, 0⟩, ⟨0, 0, 0⟩, 0, 0⟩ 1 = some r ∧
        r.2.stack.length + 1 =
          (⟨[frameB], 1, 2, ⟨0, 0, 0⟩, ⟨0, 0, 0⟩, 0, 0⟩ : CAState).stack.length)) ∧
    (([] : List ConservativeAdvancementStackData) = [] → (1 : ℚ) < frameB.d →
      canStopOBB 1 0 0 axesStd mbZero mbZero
        ⟨[frameB], 1, 2, ⟨0, 0, 0⟩, ⟨0, 0, 0⟩, 0, 0⟩ 1 = none ∧
      canStopRSS 1 0 0 axesStd Matrix3f.id3 mbZero mbZero
        ⟨[frameB], 1, 2, ⟨0, 0, 0⟩, ⟨0, 0, 0⟩, 0, 0⟩ 1 = none) :=
  canStop_stack_safety 1 0 0 axesStd Matrix3f.id3 mbZero mbZero
    ⟨[frameB], 1, 2, ⟨0, 0, 0⟩, ⟨0, 0, 0⟩, 0, 0⟩ 1 frameB [] rfl

/-- C2: in every admissible canStop call the candidate time step is computed
from the argument c and the summed motion bound of the selected frame, and in
every CCD leafTesting call from the leaf distance d and the summed motion bound;
the candidate is 1 when bound <= c (respectively bound <= d) and c / bound
otherwise; delta_t is replaced only when the candidate is strictly smaller (one
step is a minimum), and starting from 1 the running delta_t is the minimum
candidate seen so far and is monotonically non-increasing. -/
theorem ccd_delta_t_is_min_of_candidates
    (w abs_err rel_err : ℚ) (axes : Nat → Fin 3 → Vec3f) (R0 : Matrix3f)
    (mbs1 mbs2 : Nat → Vec3f → ℚ) (mb1 mb2 : Vec3f → ℚ)
    (st : CAState) (c : ℚ)
    (top : ConservativeAdvancementStackData)
    (rest : List ConservativeAdvancementStackData)
    (hst : st.stack = top :: rest)
    (hdeep : c < top.d → rest ≠ [])
    (hadm : canStopAdmissible w abs_err rel_err st.min_distance c)
    (pid1 pid2 : Nat) (d : ℚ) (P1 P2 : Vec3f)
    (hn : R0.mulVec (P2 - P1) ≠ 0) :
    (∃ st', canStopOBB w abs_err rel_err axes mbs1 mbs2 st c = some (true, st') ∧
       st'.delta_t = deltaTStep st.delta_t
         (c, mbs1 (selFrame top rest c).c1
               (obbNodeDir axes (selFrame top rest c).c1
                 ((selFrame top rest c).P2 - (selFrame top rest c).P1)) +
             mbs2 (selFrame top rest c).c2
               (obbNodeDir axes (selFrame top rest c).c1
                 ((selFrame top rest c).P2 - (selFrame top rest c).P1)))) ∧
    (∃ st', ccdLeafTesting R0 mb1 mb2 pid1 pid2 d P1 P2 st = some st' ∧
       st'.delta_t = deltaTStep st.delta_t
         (d, mb1 (R0.mulVec (P2 - P1)) + mb2 (-(R0.mulVec (P2 - P1))))) ∧
    (∀ dt c0 bound, deltaTStep dt (c0, bound) = min (curDeltaT c0 bound) dt ∧
       curDeltaT c0 bound = (if bound ≤ c0 then 1 else c0 / bound)) ∧
    (∀ (l : List (ℚ × ℚ)) (a : ℚ), l.foldl deltaTStep a ≤ a) ∧
    (∀ l : List (ℚ × ℚ), (∀ p ∈ l, 0 ≤ p.1) → l ≠ [] →
       (l.foldl deltaTStep 1 ∈ l.map fun p => curDeltaT p.1 p.2) ∧
       (∀ p ∈ l, l.foldl deltaTStep 1 ≤ curDeltaT p.1 p.2)) := by
  refine ⟨?_, ?_, ?_, ?_, ?_⟩
  · by_cases hd : c < top.d
    · obtain ⟨second, rest2, rfl⟩ : ∃ s r, rest = s :: r := by
        cases rest with
        | nil => exact absurd rfl (hdeep hd)
        | cons s r => exact ⟨s, r, rfl⟩
      rw [canStopOBB_eq_deep w abs_err rel_err axes mbs1 mbs2 st c top second rest2 hst hd,
        if_pos hadm]
      refine ⟨_, rfl, ?_⟩
      rw [selFrame, if_pos hd]
      rfl
    · rw [canStopOBB_eq_shallow w abs_err rel_err axes mbs1 mbs2 st c top rest hst hd,
        if_pos hadm]
      refine ⟨_, rfl, ?_⟩
      rw [selFrame, if_neg hd]
  · simp only [ccdLeafTesting, normalizeOpt, if_neg hn]
    have hdt : (if d < st.min_distance then
        { st with min_distance := d, p1 := P1, p2 := P2,
                  last_tri_id1 := pid1, last_tri_id2 := pid2 }
      else st).delta_t = st.delta_t := by
      by_cases h : d < st.min_distance
      · rw [if_pos h]
      · rw [if_neg h]
    refine ⟨_, rfl, ?_⟩
    rw [deltaTStep_eq_min]
    by_cases hcur : curDeltaT d (mb1 (R0.mulVec (P2 - P1)) + mb2 (-(R0.mulVec (P2 - P1)))) <
        (if d < st.min_distance then
          { st with min_distance := d, p1 := P1, p2 := P2,
                    last_tri_id1 := pid1, last_tri_id2 := pid2 }
        else st).delta_t
    · rw [if_pos (by simpa [curDeltaT] using hcur)]
      rw [hdt] at hcur
      simp only [curDeltaT] at hcur
      exact (min_eq_left (le_of_lt (by simpa [curDeltaT] using hcur))).symm
    · rw [if_neg (by simpa [curDeltaT] using hcur)]
      rw [hdt] at hcur
      rw [hdt]
      exact (min_eq_right (not_lt.mp (by simpa [curDeltaT] using hcur))).symm
  · intro dt c0 bound
    exact ⟨deltaTStep_eq_min dt (c0, bound), rfl⟩
  · intro l a
    rw [foldl_deltaTStep_eq_foldl_min]
    exact foldl_min_le_init a _
  · intro l hpos hne
    have hle : ∀ p ∈ l, l.foldl deltaTStep 1 ≤ curDeltaT p.1 p.2 := by
      intro p hp
      rw [foldl_deltaTStep_eq_foldl_min]
      exact foldl_min_le_mem 1 _ _ (List.mem_map_of_mem _ hp)
    refine ⟨?_, hle⟩
    obtain ⟨p0, hp0⟩ : ∃ p, p ∈ l := by
      cases l with
      | nil => exact absurd rfl hne
      | cons p l => exact ⟨p, List.mem_cons_self p l⟩
    rcases foldl_min_mem 1 (l.map fun p => curDeltaT p.1 p.2) with h | h
    · have h1 : l.foldl deltaTStep 1 = 1 := by
        rw [foldl_deltaTStep_eq_foldl_min, h]
      have hx : l.foldl deltaTStep 1 ≤ curDeltaT p0.1 p0.2 := hle p0 hp0
      have hx1 : curDeltaT p0.1 p0.2 ≤ 1 := curDeltaT_le_one p0.1 p0.2 (hpos p0 hp0)
      have : curDeltaT p0.1 p0.2 = 1 := le_antisymm hx1 (h1 ▸ hx)
      rw [h1, ← this]
      exact List.mem_map_of_mem _ hp0
    · rw [foldl_deltaTStep_eq_foldl_min]
      exact h

/-- Witness for C2: the canStop conjunct of the theorem applied to a concrete
admissible call. -/
theorem ccd_delta_t_is_min_of_candidates_witness :
    ∃ st', canStopOBB 1 0 0 axesStd mbZero mbZero stA 1 = some (true, st') ∧
       st'.delta_t = deltaTStep stA.delta_t
         (1, mbZero (selFrame frameA [] 1).c1
               (obbNodeDir axesStd (selFrame frameA [] 1).c1
                 ((selFrame frameA [] 1).P2 - (selFrame frameA [] 1).P1)) +
             mbZero (selFrame frameA [] 1).c2
               (obbNodeDir axesStd (selFrame frameA [] 1).c1
                 ((selFrame frameA [] 1).P2 - (selFrame frameA [] 1).P1))) :=
  (ccd_delta_t_is_min_of_candidates 1 0 0 axesStd Matrix3f.id3 mbZero mbZero
    (fun _ => 0) (fun _ => 0) stA 1 frameA [] rfl
    (fun h => absurd h (lt_irrefl 1))
    (by simp [canStopAdmissible, stA])
    0 0 1 ⟨0, 0, 0⟩ ⟨1, 1, 1⟩
    (by simp [Matrix3f.id3_mulVec, Vec3f.sub_def, Vec3f.zero_def])).1

theorem Matrix3f.mulVec_zero (M : Matrix3f) : M.mulVec 0 = 0 := by
  simp [Matrix3f.mulVec, Vec3f.dot, Vec3f.zero_def]

/-- Counterexample for C3: at a concrete admissible call, the OBB canStop of
the source (which passes the plain axis combination, unrotated, unnormalized
and unnegated, to both motion-bound oracles) and the direction pipeline the
claim describes (rotated by the current rotation of body 1, normalized, negated
for body 2) produce different delta_t values, so the claim is false of the
code. -/
theorem canStop_direction_counterexample :
    canStopOBB 1 0 0 axesStd mbY mbZero stC (1/2) =
      some (true, ⟨[], 1, 1/2, ⟨0, 0, 0⟩, ⟨0, 0, 0⟩, 0, 0⟩) ∧
    canStopDirSpec 1 0 0 axesStd rotZ90 mbY mbZero stC (1/2) =
      some (true, ⟨[], 1/2, 1/2, ⟨0, 0, 0⟩, ⟨0, 0, 0⟩, 0, 0⟩) ∧
    ((1 : ℚ) ≠ 1/2) := by
  refine ⟨?_, ?_, by norm_num⟩
  · rw [canStopOBB, stC]
    norm_num [canStopAdmissible, frameC, axesStd, mbY, mbZero,
      Vec3f.smul, Vec3f.add_def, Vec3f.sub_def]
  · rw [canStopDirSpec, stC]
    norm_num [canStopAdmissible, frameC, axesStd, mbY, mbZero, rotZ90, normalizeOpt,
      Matrix3f.mulVec, Vec3f.dot, Vec3f.smul, Vec3f.add_def, Vec3f.sub_def,
      Vec3f.neg_def, Vec3f.zero_def]
    rw [if_neg (by decide : ¬ (⟨0, 1, 0⟩ : Vec3f) = 0)]
    norm_num

/-- C3 as amended: in the template OBB canStop (and the character-identical
template RSS one) the separation vector n of the selected frame is combined as
axis[0] * n[0] + axis[1] * n[1] + axis[2] * n[2] and this combination is passed
to both motion-bound oracles without composition with the rotation of body 1,
without normalization and without negation; in the RSS node class canStop the
combination instead uses n[2] as the coefficient of axis[1] (in place of n[1]),
and the result is composed with the current rotation of body 1, normalized (the
scale is absorbed by the oracle), and negated for the oracle of body 2. -/
theorem canStop_direction_amended
    (w abs_err rel_err : ℚ) (axes : Nat → Fin 3 → Vec3f) (R0 : Matrix3f)
    (mbs1 mbs2 : Nat → Vec3f → ℚ) (st : CAState) (c : ℚ)
    (top : ConservativeAdvancementStackData)
    (rest : List ConservativeAdvancementStackData)
    (hst : st.stack = top :: rest)
    (hdeep : c < top.d → rest ≠ [])
    (hadm : canStopAdmissible w abs_err rel_err st.min_distance c)
    (hnz : R0.mulVec (rssNodeDir axes (selFrame top rest c).c1
        ((selFrame top rest c).P2 - (selFrame top rest c).P1)) ≠ 0) :
    (∀ (axs : Nat → Fin 3 → Vec3f) (k : Nat) (n : Vec3f),
       rssNodeDir axs k n = obbNodeDir axs k ⟨n.x, n.z, n.z⟩) ∧
    (∃ st', canStopOBB w abs_err rel_err axes mbs1 mbs2 st c = some (true, st') ∧
       st'.delta_t = deltaTStep st.delta_t
         (c, mbs1 (selFrame top rest c).c1
               (obbNodeDir axes (selFrame top rest c).c1
                 ((selFrame top rest c).P2 - (selFrame top rest c).P1)) +
             mbs2 (selFrame top rest c).c2
               (obbNodeDir axes (selFrame top rest c).c1
                 ((selFrame top rest c).P2 - (selFrame top rest c).P1)))) ∧
    (∃ st', canStopRSS w abs_err rel_err axes R0 mbs1 mbs2 st c = some (true, st') ∧
       st'.delta_t = deltaTStep st.delta_t
         (c, mbs1 (selFrame top rest c).c1
               (R0.mulVec (rssNodeDir axes (selFrame top rest c).c1
                 ((selFrame top rest c).P2 - (selFrame top rest c).P1))) +
             mbs2 (selFrame top rest c).c2
               (-(R0.mulVec (rssNodeDir axes (selFrame top rest c).c1
                 ((selFrame top rest c).P2 - (selFrame top rest c).P1)))))) := by
  refine ⟨fun axs k n => rfl, ?_, ?_⟩
  · by_cases hd : c < top.d
    · obtain ⟨second, rest2, rfl⟩ : ∃ s r, rest = s :: r := by
        cases rest with
        | nil => exact absurd rfl (hdeep hd)
        | cons s r => exact ⟨s, r, rfl⟩
      rw [canStopOBB_eq_deep w abs_err rel_err axes mbs1 mbs2 st c top second rest2 hst hd,
        if_pos hadm]
      refine ⟨_, rfl, ?_⟩
      rw [selFrame, if_pos hd]
      rfl
    · rw [canStopOBB_eq_shallow w abs_err rel_err axes mbs1 mbs2 st c top rest hst hd,
        if_pos hadm]
      refine ⟨_, rfl, ?_⟩
      rw [selFrame, if_neg hd]
  · by_cases hd : c < top.d
    · obtain ⟨second, rest2, rfl⟩ : ∃ s r, rest = s :: r := by
        cases rest with
        | nil => exact absurd rfl (hdeep hd)
        | cons s r => exact ⟨s, r, rfl⟩
      simp only [selFrame, if_pos hd, List.headD_cons] at hnz
      rw [canStopRSS_eq_deep w abs_err rel_err axes R0 mbs1 mbs2 st c top second rest2 hst hd,
        if_pos hadm, normalizeOpt, if_neg hnz]
      refine ⟨_, rfl, ?_⟩
      rw [selFrame, if_pos hd]
      rfl
    · rw [selFrame, if_neg hd] at hnz
      rw [canStopRSS_eq_shallow w abs_err rel_err axes R0 mbs1 mbs2 st c top rest hst hd,
        if_pos hadm, normalizeOpt, if_neg hnz]
      refine ⟨_, rfl, ?_⟩
      rw [selFrame, if_neg hd]

/-- Witness for the amended C3: the OBB conjunct of the theorem applied to a
concrete admissible call. -/
theorem canStop_direction_amended_witness :
    ∃ st', canStopOBB 1 0 0 axesStd mbY mbZero stC (1/2) = some (true, st') ∧
       st'.delta_t = deltaTStep stC.delta_t
         (1/2, mbY (selFrame frameC [] (1/2)).c1
               (obbNodeDir axesStd (selFrame frameC [] (1/2)).c1
                 ((selFrame frameC [] (1/2)).P2 - (selFrame frameC [] (1/2)).P1)) +
             mbZero (selFrame frameC [] (1/2)).c2
               (obbNodeDir axesStd (selFrame frameC [] (1/2)).c1
                 ((selFrame frameC [] (1/2)).P2 - (selFrame frameC [] (1/2)).P1))) :=
  (canStop_direction_amended 1 0 0 axesStd rotZ90 mbY mbZero stC (1/2) frameC []
    rfl (fun h => absurd h (lt_irrefl (1/2)))
    (by simp [canStopAdmissible, stC])
    (by simp [selFrame, frameC, rssNodeDir, axesStd, rotZ90, Matrix3f.mulVec,
      Vec3f.dot, Vec3f.smul, Vec3f.add_def, Vec3f.sub_def, Vec3f.zero_def])).2.1

/-- C10: CCD leafTesting normalizes the separation direction of the leaf pair
unconditionally, before querying the motion-bound oracles; given the kernel
property of the spec (a zero distance means coincident nearest points, and the
distance is nonnegative), the call is fully
defined only when the leaf triangles are strictly separated (0 < d), and for
coincident nearest points (intersecting triangles) the normalization is not
defined and the call is undefined. -/
theorem ccd_leaf_normalization_needs_separation
    (R0 : Matrix3f) (mb1 mb2 : Vec3f → ℚ) (pid1 pid2 : Nat)
    (d : ℚ) (P1 P2 : Vec3f) (st : CAState)
    (hker : d = 0 → P1 = P2)
    (hd : 0 ≤ d) :
    ((ccdLeafTesting R0 mb1 mb2 pid1 pid2 d P1 P2 st).isSome → 0 < d) ∧
    (P1 = P2 → ccdLeafTesting R0 mb1 mb2 pid1 pid2 d P1 P2 st = none) := by
  have hnone : ∀ hp : P1 = P2, ccdLeafTesting R0 mb1 mb2 pid1 pid2 d P1 P2 st = none := by
    intro hp
    have hz : P2 - P1 = 0 := by
      rw [hp, Vec3f.sub_def, Vec3f.zero_def]
      simp
    have hnm : normalizeOpt (R0.mulVec (P2 - P1)) = none := by
      rw [hz, Matrix3f.mulVec_zero, normalizeOpt, if_pos rfl]
    simp only [ccdLeafTesting, hnm]
  refine ⟨?_, hnone⟩
  intro hs
  by_contra hlt
  have hd0 : d = 0 := le_antisymm (not_lt.mp hlt) hd
  rw [hnone (hker hd0)] at hs
  simp at hs

/-- Witness for C10: the theorem applied to a concrete strictly separated leaf
pair under the identity rotation. -/
theorem ccd_leaf_normalization_needs_separation_witness :
    ((ccdLeafTesting Matrix3f.id3 (fun _ => 0) (fun _ => 0) 0 0 1
        ⟨0, 0, 0⟩ ⟨1, 0, 0⟩ stA).isSome → (0 : ℚ) < 1) ∧
    ((⟨0, 0, 0⟩ : Vec3f) = ⟨1, 0, 0⟩ →
      ccdLeafTesting Matrix3f.id3 (fun _ => 0) (fun _ => 0) 0 0 1
        ⟨0, 0, 0⟩ ⟨1, 0, 0⟩ stA = none) :=
  ccd_leaf_normalization_needs_separation Matrix3f.id3 (fun _ => 0) (fun _ => 0) 0 0 1
    ⟨0, 0, 0⟩ ⟨1, 0, 0⟩ stA
    (fun h => absurd h one_ne_zero)
    zero_le_one

theorem meshDistanceLeafTesting_min_distance
    (request : DistanceRequest) (model1 model2 pid1 pid2 : Nat) (d : ℚ)
    (P1 P2 : Vec3f) (res : DistanceResult) :
    (meshDistanceLeafTesting request model1 model2 pid1 pid2 d P1 P2 res).min_distance =
      min d res.min_distance := by
  unfold meshDistanceLeafTesting DistanceResult.update DistanceResult.updateIds
  by_cases he : request.enable_nearest_points = true
  · rw [if_pos he]
    by_cases hlt : d < res.min_distance
    · rw [if_pos hlt, min_eq_left hlt.le]
    · rw [if_neg hlt, min_eq_right (not_lt.mp hlt)]
  · rw [if_neg he]
    by_cases hlt : d < res.min_distance
    · rw [if_pos hlt, min_eq_left hlt.le]
    · rw [if_neg hlt, min_eq_right (not_lt.mp hlt)]

theorem meshDistanceLeafTesting_no_replace_on_tie
    (request : DistanceRequest) (model1 model2 pid1 pid2 : Nat) (d : ℚ)
    (P1 P2 : Vec3f) (res : DistanceResult) (hd : ¬ d < res.min_distance) :
    meshDistanceLeafTesting request model1 model2 pid1 pid2 d P1 P2 res = res := by
  unfold meshDistanceLeafTesting DistanceResult.update DistanceResult.updateIds
  by_cases he : request.enable_nearest_points = true
  · rw [if_pos he, if_neg hd]
  · rw [if_neg he, if_neg hd]

theorem runDistanceLeafTests_min_distance
    (request : DistanceRequest) (model1 model2 : Nat)
    (events : List DistanceLeafEvent) (res : DistanceResult) :
    (runDistanceLeafTests request model1 model2 res events).min_distance =
      (events.map fun e => e.d).foldl min res.min_distance := by
  induction events generalizing res with
  | nil => rfl
  | cons e events ih =>
    simp only [runDistanceLeafTests, List.foldl_cons, List.map_cons] at ih ⊢
    rw [ih, meshDistanceLeafTesting_min_distance, min_comm]

/-- C6: over any sequence of distance leaf tests the stored minimum distance is
monotonically non-increasing, is a lower bound of every examined leaf distance,
and is either the initial value or one of the examined distances (so with an
initial value no smaller than the examined minimum it is the smallest distance
examined); an examined distance equal to the current minimum replaces nothing
(ties keep the existing best, which is replaced only on strict improvement);
and one CCD leafTesting call updates min_distance to the minimum of the old
value and the leaf distance, replacing the stored witness pair and primitive
ids exactly on strict improvement. -/
theorem distance_min_monotone_and_strict_replacement
    (request : DistanceRequest) (model1 model2 : Nat)
    (events : List DistanceLeafEvent) (res : DistanceResult)
    (R0 : Matrix3f) (mb1 mb2 : Vec3f → ℚ) (pid1 pid2 : Nat) (d : ℚ)
    (P1 P2 : Vec3f) (st : CAState) :
    ((runDistanceLeafTests request model1 model2 res events).min_distance ≤
      res.min_distance) ∧
    (∀ e ∈ events,
      (runDistanceLeafTests request model1 model2 res events).min_distance ≤ e.d) ∧
    ((runDistanceLeafTests request model1 model2 res events).min_distance =
        res.min_distance ∨
      ∃ e ∈ events,
        (runDistanceLeafTests request model1 model2 res events).min_distance = e.d) ∧
    (∀ e : DistanceLeafEvent, e.d = res.min_distance →
      meshDistanceLeafTesting request model1 model2 e.pid1 e.pid2 e.d e.P1 e.P2 res =
        res) ∧
    (∀ st', ccdLeafTesting R0 mb1 mb2 pid1 pid2 d P1 P2 st = some st' →
      st'.min_distance = min d st.min_distance ∧
      (¬ d < st.min_distance →
        st'.p1 = st.p1 ∧ st'.p2 = st.p2 ∧
        st'.last_tri_id1 = st.last_tri_id1 ∧ st'.last_tri_id2 = st.last_tri_id2) ∧
      (d < st.min_distance →
        st'.p1 = P1 ∧ st'.p2 = P2 ∧
        st'.last_tri_id1 = pid1 ∧ st'.last_tri_id2 = pid2)) := by
  refine ⟨?_, ?_, ?_, ?_, ?_⟩
  · rw [runDistanceLeafTests_min_distance]
    exact foldl_min_le_init _ _
  · intro e he
    rw [runDistanceLeafTests_min_distance]
    exact foldl_min_le_mem _ _ _ (List.mem_map_of_mem _ he)
  · rw [runDistanceLeafTests_min_distance]
    rcases foldl_min_mem res.min_distance (events.map fun e => e.d) with h | h
    · exact Or.inl h
    · obtain ⟨e, he, hde⟩ := List.mem_map.mp h
      exact Or.inr ⟨e, he, hde.symm⟩
  · intro e he
    exact meshDistanceLeafTesting_no_replace_on_tie request model1 model2 e.pid1 e.pid2
      e.d e.P1 e.P2 res (by rw [he]; exact lt_irrefl _)
  · intro st' h
    simp only [ccdLeafTesting] at h
    rcases hopt : normalizeOpt (R0.mulVec (P2 - P1)) with _ | nt <;> rw [hopt] at h
    · exact absurd h (by simp)
    · have h2 := Option.some.inj h
      by_cases hlt : d < st.min_distance
      · rw [if_pos hlt] at h2
        subst h2
        refine ⟨?_, fun hc => absurd hlt hc, fun _ => ?_⟩
        · simp [apply_ite CAState.min_distance, min_eq_left hlt.le]
        · simp [apply_ite CAState.p1, apply_ite CAState.p2,
            apply_ite CAState.last_tri_id1, apply_ite CAState.last_tri_id2]
      · rw [if_neg hlt] at h2
        subst h2
        refine ⟨?_, fun _ => ?_, fun hc => absurd hc hlt⟩
        · simp [apply_ite CAState.min_distance, min_eq_right (not_lt.mp hlt)]
        · simp [apply_ite CAState.p1, apply_ite CAState.p2,
            apply_ite CAState.last_tri_id1, apply_ite CAState.last_tri_id2]

/-- Witness for C6: the monotonicity conjunct of the theorem applied to a
concrete one-event sequence. -/
theorem distance_min_monotone_and_strict_replacement_witness :
    (runDistanceLeafTests ⟨true⟩ 0 1 resD [evD]).min_distance ≤ resD.min_distance :=
  (distance_min_monotone_and_strict_replacement ⟨true⟩ 0 1 [evD] resD
    Matrix3f.id3 (fun _ => 0) (fun _ => 0) 0 0 1 ⟨0, 0, 0⟩ ⟨1, 0, 0⟩ stA).1

/-- C8: postprocess applies the transform of body 1 to both stored nearest
points exactly when nearest points were requested and the stored model
identities still equal the models of the query; in every other case the result
is left entirely unchanged; and in all cases the minimum distance, the model
identities and the primitive ids are unchanged. -/
theorem distance_postprocess_frame_effect
    (model1 model2 : Nat) (tf1 : SimpleTransform) (request : DistanceRequest)
    (res : DistanceResult) :
    ((request.enable_nearest_points ∧ res.o1 = model1 ∧ res.o2 = model2) →
      distancePostprocessOrientedNode model1 model2 tf1 request res =
        { res with nearest_point1 := tf1.transform res.nearest_point1,
                   nearest_point2 := tf1.transform res.nearest_point2 }) ∧
    (¬ (request.enable_nearest_points ∧ res.o1 = model1 ∧ res.o2 = model2) →
      distancePostprocessOrientedNode model1 model2 tf1 request res = res) ∧
    ((distancePostprocessOrientedNode model1 model2 tf1 request res).min_distance =
        res.min_distance ∧
      (distancePostprocessOrientedNode model1 model2 tf1 request res).o1 = res.o1 ∧
      (distancePostprocessOrientedNode model1 model2 tf1 request res).o2 = res.o2 ∧
      (distancePostprocessOrientedNode model1 model2 tf1 request res).b1 = res.b1 ∧
      (distancePostprocessOrientedNode model1 model2 tf1 request res).b2 = res.b2) := by
  unfold distancePostprocessOrientedNode
  by_cases hc : request.enable_nearest_points ∧ res.o1 = model1 ∧ res.o2 = model2
  · rw [if_pos hc]
    exact ⟨fun _ => rfl, fun h => absurd hc h, rfl, rfl, rfl, rfl, rfl⟩
  · rw [if_neg hc]
    exact ⟨fun h => absurd h hc, fun _ => rfl, rfl, rfl, rfl, rfl, rfl⟩

/-- Witness for C8: the theorem applied to a concrete matching query, with the
transform applied to the stored points. -/
theorem distance_postprocess_frame_effect_witness :
    distancePostprocessOrientedNode 0 1 ⟨rotZ90, ⟨1, 2, 3⟩⟩ ⟨true⟩ resD =
      { resD with
        nearest_point1 := SimpleTransform.transform ⟨rotZ90, ⟨1, 2, 3⟩⟩ resD.nearest_point1,
        nearest_point2 := SimpleTransform.transform ⟨rotZ90, ⟨1, 2, 3⟩⟩ resD.nearest_point2 } :=
  (distance_postprocess_frame_effect 0 1 ⟨rotZ90, ⟨1, 2, 3⟩⟩ ⟨true⟩ resD).1
    ⟨rfl, rfl, rfl⟩

theorem addContact_length_le (res : CollisionResult) (maxc : Nat) (ct : Contact)
    (h : res.contacts.length ≤ maxc) :
    ((res.addContact maxc ct).contacts.length ≤ maxc) := by
  unfold CollisionResult.addContact
  by_cases hlt : res.contacts.length < maxc
  · rw [if_pos hlt]
    simpa using Nat.succ_le_of_lt hlt
  · rw [if_neg hlt]
    exact h

theorem addContact_at_budget (res : CollisionResult) (maxc : Nat) (ct : Contact)
    (h : ¬ res.contacts.length < maxc) :
    res.addContact maxc ct = res := by
  unfold CollisionResult.addContact
  rw [if_neg h]

theorem foldl_addContact_budget (maxc : Nat) (g : Vec3f → Contact) (l : List Vec3f) :
    ∀ res : CollisionResult, res.contacts.length ≤ maxc →
      ((l.foldl (fun r pt => r.addContact maxc (g pt)) res).contacts.length ≤ maxc ∧
       (res.contacts.length = maxc →
         (l.foldl (fun r pt => r.addContact maxc (g pt)) res).contacts = res.contacts)) := by
  induction l with
  | nil => exact fun res h => ⟨h, fun _ => rfl⟩
  | cons pt l ih =>
    intro res h
    simp only [List.foldl_cons]
    refine ⟨(ih _ (addContact_length_le res maxc (g pt) h)).1, fun hm => ?_⟩
    have hid : res.addContact maxc (g pt) = res :=
      addContact_at_budget res maxc (g pt) (by rw [hm]; exact lt_irrefl maxc)
    rw [hid]
    exact (ih res h).2 hm

theorem meshCollisionLeafTesting_contacts_cases
    (occ1 occ2 : OccupancyTag) (request : CollisionRequest) (tf1 tf2 : SimpleTransform)
    (cost_density : ℚ) (pid1 pid2 : Nat) (p1 p2 p3 q1 q2 q3 : Vec3f)
    (isect : IntersectOut) (res : CollisionResult) :
    (meshCollisionLeafTesting occ1 occ2 request tf1 tf2 cost_density pid1 pid2
        p1 p2 p3 q1 q2 q3 isect res).contacts = res.contacts ∨
    (meshCollisionLeafTesting occ1 occ2 request tf1 tf2 cost_density pid1 pid2
        p1 p2 p3 q1 q2 q3 isect res).contacts =
      (res.addContact request.num_max_contacts ⟨pid1, pid2, 0, 0, 0⟩).contacts ∨
    (∃ n : Nat,
      (meshCollisionLeafTesting occ1 occ2 request tf1 tf2 cost_density pid1 pid2
          p1 p2 p3 q1 q2 q3 isect res).contacts =
        ((isect.pts.take n).foldl
          (fun r pt => r.addContact request.num_max_contacts
            ⟨pid1, pid2, tf1.transform pt, tf1.R.mulVec isect.normal,
             isect.penetration⟩) res).contacts) := by
  simp only [meshCollisionLeafTesting, CollisionResult.addCostSource]
  split_ifs <;> simp_all <;> first
    | exact Or.inl rfl
    | exact Or.inr (Or.inl rfl)
    | exact Or.inr (Or.inr ⟨_, rfl⟩)
    | exact Or.inr (Or.inr ⟨isect.pts.length, by rw [List.take_length]⟩)

theorem meshCollisionLeafTesting_budget_step
    (occ1 occ2 : OccupancyTag) (request : CollisionRequest) (tf1 tf2 : SimpleTransform)
    (cost_density : ℚ) (pid1 pid2 : Nat) (p1 p2 p3 q1 q2 q3 : Vec3f)
    (isect : IntersectOut) (res : CollisionResult)
    (h : res.contacts.length ≤ request.num_max_contacts) :
    ((meshCollisionLeafTesting occ1 occ2 request tf1 tf2 cost_density pid1 pid2
        p1 p2 p3 q1 q2 q3 isect res).contacts.length ≤ request.num_max_contacts) ∧
    (res.contacts.length = request.num_max_contacts →
      (meshCollisionLeafTesting occ1 occ2 request tf1 tf2 cost_density pid1 pid2
        p1 p2 p3 q1 q2 q3 isect res).contacts = res.contacts) := by
  rcases meshCollisionLeafTesting_contacts_cases occ1 occ2 request tf1 tf2 cost_density
      pid1 pid2 p1 p2 p3 q1 q2 q3 isect res with hc | hc | ⟨n, hc⟩
  · rw [hc]
    exact ⟨h, fun _ => rfl⟩
  · rw [hc]
    refine ⟨addContact_length_le res request.num_max_contacts _ h, fun hm => ?_⟩
    rw [addContact_at_budget res request.num_max_contacts _ (by rw [hm]; exact lt_irrefl _)]
  · rw [hc]
    have hf := foldl_addContact_budget request.num_max_contacts
      (fun pt => ⟨pid1, pid2, tf1.transform pt, tf1.R.mulVec isect.normal,
        isect.penetration⟩) (isect.pts.take n) res h
    exact ⟨hf.1, hf.2⟩

/-- C5: over any sequence of collision leaf tests, starting from a result whose
contact list is within the budget of the request, the number of recorded
contacts never exceeds num_max_contacts, and once the budget is reached further
leaf tests add no contact — for any occupancy pair, in both the contact-detail
branch and the boolean-only branch (the request is universally quantified). -/
theorem collision_contact_budget
    (occ1 occ2 : OccupancyTag) (request : CollisionRequest) (tf1 tf2 : SimpleTransform)
    (cost_density : ℚ) (events : List CollisionLeafEvent) (res : CollisionResult)
    (h : res.contacts.length ≤ request.num_max_contacts) :
    ((runCollisionLeafTests occ1 occ2 request tf1 tf2 cost_density res events).contacts.length ≤
       request.num_max_contacts) ∧
    (res.contacts.length = request.num_max_contacts →
       (runCollisionLeafTests occ1 occ2 request tf1 tf2 cost_density res events).contacts =
         res.contacts) := by
  induction events generalizing res with
  | nil => exact ⟨h, fun _ => rfl⟩
  | cons e events ih =>
    simp only [runCollisionLeafTests, List.foldl_cons] at ih ⊢
    have hstep := meshCollisionLeafTesting_budget_step occ1 occ2 request tf1 tf2
      cost_density e.pid1 e.pid2 e.p1 e.p2 e.p3 e.q1 e.q2 e.q3 e.isect res h
    refine ⟨(ih _ hstep.1).1, fun hm => ?_⟩
    have hsame := hstep.2 hm
    have htail := (ih _ hstep.1).2 (by rw [hsame, hm])
    rw [htail, hsame]

/-- Witness for C5: the theorem applied to a concrete query with budget 1 and
two intersecting leaf events in the boolean-only branch. -/
theorem collision_contact_budget_witness :
    ((runCollisionLeafTests OccupancyTag.occupied OccupancyTag.occupied
        ⟨1, false, false⟩ tfId tfId 1 resEmpty [evHit, evHit]).contacts.length ≤
       (1 : Nat)) ∧
    (resEmpty.contacts.length = 1 →
       (runCollisionLeafTests OccupancyTag.occupied OccupancyTag.occupied
        ⟨1, false, false⟩ tfId tfId 1 resEmpty [evHit, evHit]).contacts =
         resEmpty.contacts) :=
  collision_contact_budget OccupancyTag.occupied OccupancyTag.occupied
    ⟨1, false, false⟩ tfId tfId 1 [evHit, evHit] resEmpty (by decide)

/-- Counterexample for C7: a concrete leaf pair with model 1 Free and model 2
Occupied (so the pair is not both Occupied and one region is not Free), cost
accumulation enabled and an intersecting triangle pair, on which the code
records nothing: the else-branch requires BOTH models to be not Free. -/
theorem collision_cost_counterexample :
    (OccupancyTag.free.isOccupied && OccupancyTag.occupied.isOccupied) = false ∧
    OccupancyTag.occupied.isFree = false ∧
    isectHit.hit = true ∧
    meshCollisionLeafTesting OccupancyTag.free OccupancyTag.occupied
      ⟨1, false, true⟩ tfId tfId 1 0 0
      ⟨0, 0, 0⟩ ⟨0, 0, 0⟩ ⟨0, 0, 0⟩ ⟨0, 0, 0⟩ ⟨0, 0, 0⟩ ⟨0, 0, 0⟩
      isectHit resEmpty = resEmpty := by
  refine ⟨rfl, rfl, rfl, ?_⟩
  rfl

/-- C7 as amended: in collision leafTesting on a leaf pair whose models are not
both Occupied, whenever NEITHER model is Free and the request enables cost
accumulation, an intersecting triangle pair records exactly one cost source,
the axis-aligned overlap of the world-space bounds of the two triangles with
the configured density. -/
theorem collision_cost_amended
    (occ1 occ2 : OccupancyTag) (request : CollisionRequest) (tf1 tf2 : SimpleTransform)
    (cost_density : ℚ) (pid1 pid2 : Nat) (p1 p2 p3 q1 q2 q3 : Vec3f)
    (isect : IntersectOut) (res : CollisionResult)
    (hocc : (occ1.isOccupied && occ2.isOccupied) = false)
    (hfree1 : occ1.isFree = false) (hfree2 : occ2.isFree = false)
    (hcost : request.enable_cost = true) (hhit : isect.hit = true) :
    meshCollisionLeafTesting occ1 occ2 request tf1 tf2 cost_density pid1 pid2
      p1 p2 p3 q1 q2 q3 isect res =
    res.addCostSource (CostSource.ofAABB
      ((AABB.ofTri (tf1.transform p1) (tf1.transform p2) (tf1.transform p3)).overlapPart
        (AABB.ofTri (tf2.transform q1) (tf2.transform q2) (tf2.transform q3)))
      cost_density) := by
  simp only [meshCollisionLeafTesting, hocc, hfree1, hfree2, hcost, hhit,
    Bool.not_false, Bool.and_true, Bool.and_self, Bool.false_eq_true, if_false,
    if_true]

/-- Witness for the amended C7: the theorem applied to a concrete pair with
model 1 Unknown and model 2 Occupied. -/
theorem collision_cost_amended_witness :
    meshCollisionLeafTesting OccupancyTag.unknown OccupancyTag.occupied
      ⟨1, false, true⟩ tfId tfId 1 0 0
      ⟨0, 0, 0⟩ ⟨0, 0, 0⟩ ⟨0, 0, 0⟩ ⟨0, 0, 0⟩ ⟨0, 0, 0⟩ ⟨0, 0, 0⟩
      isectHit resEmpty =
    resEmpty.addCostSource (CostSource.ofAABB
      ((AABB.ofTri (tfId.transform ⟨0, 0, 0⟩) (tfId.transform ⟨0, 0, 0⟩)
          (tfId.transform ⟨0, 0, 0⟩)).overlapPart
        (AABB.ofTri (tfId.transform ⟨0, 0, 0⟩) (tfId.transform ⟨0, 0, 0⟩)
          (tfId.transform ⟨0, 0, 0⟩))) 1) :=
  collision_cost_amended OccupancyTag.unknown OccupancyTag.occupied
    ⟨1, false, true⟩ tfId tfId 1 0 0
    ⟨0, 0, 0⟩ ⟨0, 0, 0⟩ ⟨0, 0, 0⟩ ⟨0, 0, 0⟩ ⟨0, 0, 0⟩ ⟨0, 0, 0⟩
    isectHit resEmpty rfl rfl rfl rfl rfl

end Fcl
